import Mathlib

/-!
Shallow embedding of the Mesh Security provider-side core, mechanising the
spec claims against the source.

Covered source files:
- packages/sync/src/range.rs (the optimistic ValueRange primitive)
- contracts/provider/vault/src/contract.rs (collateral vault)
- contracts/provider/external-staking/src/contract.rs (external staking)

The contracts instantiate the numeric types at unsigned machine integers
(u64, Uint128, Uint256).  These are embedded as Nat; every subtraction or
division that can abort at runtime in the source (unsigned underflow,
division by zero, failed assert) is modelled explicitly, never by silent
truncation on the executed paths.  cosmwasm Decimal values are embedded as
their atomic representation (value times 10 to the 18th).

Storage maps are embedded as association lists; saving a key prepends the
fresh entry and drops the stale one, loading scans for the key.  An entry
point either returns a new state (all its writes applied) or an error and
no new state, matching the transactional semantics of the platform: on
error nothing is persisted.
-/

/-! ## ValueRange (packages/sync/src/range.rs) -/

/-- Error type of the fallible range operations (RangeError in range.rs). -/
inductive RangeError where
  | underflow
  | overflow
deriving Repr, DecidableEq

/-- Pair of a committed low bound and an optimistic high bound
(ValueRange in range.rs, instantiated at unsigned integers). -/
structure ValueRange where
  lo : Nat
  hi : Nat
deriving Repr, DecidableEq

/-- Result of one ValueRange operation.  The source returns Result for the
prepare family and mutates in place for the commit/rollback family, which
instead panic when the internal range assertion (or an unsigned
subtraction) fails; panic is made explicit here. -/
inductive StepResult where
  | ok (r : ValueRange)
  | err (e : RangeError)
  | panic
deriving Repr, DecidableEq

/-- Constructor new(value): a point range. -/
def ValueRange.new (value : Nat) : ValueRange := ⟨value, value⟩

/-- Accessor min: the committed low bound. -/
def ValueRange.min (r : ValueRange) : Nat := r.lo

/-- Accessor max: the optimistic high bound. -/
def ValueRange.max (r : ValueRange) : Nat := r.hi

/-- Query contains(value): lo ≤ value ≤ hi. -/
def ValueRange.contains (r : ValueRange) (value : Nat) : Bool :=
  decide (r.lo ≤ value) && decide (value ≤ r.hi)

/-- Query valid_max(new_max): hi ≤ new_max. -/
def ValueRange.valid_max (r : ValueRange) (new_max : Nat) : Bool :=
  decide (r.hi ≤ new_max)

/-- Query valid_min(new_min): lo ≥ new_min. -/
def ValueRange.valid_min (r : ValueRange) (new_min : Nat) : Bool :=
  decide (r.lo ≥ new_min)

/-- Operation prepare_add(value): raises hi, never fails. -/
def ValueRange.prepare_add (r : ValueRange) (value : Nat) : StepResult :=
  .ok ⟨r.lo, r.hi + value⟩

/-- Operation prepare_add_max(value, max): fails with Overflow when
hi + value > max, otherwise raises hi. -/
def ValueRange.prepare_add_max (r : ValueRange) (value mx : Nat) : StepResult :=
  if r.hi + value > mx then .err .overflow else .ok ⟨r.lo, r.hi + value⟩

/-- Operation prepare_sub(value): fails with Underflow when lo < value,
otherwise lowers lo. -/
def ValueRange.prepare_sub (r : ValueRange) (value : Nat) : StepResult :=
  if r.lo < value then .err .underflow else .ok ⟨r.lo - value, r.hi⟩

/-- Operation prepare_sub_min(value, min): with a minimum given, fails with
Underflow when lo < min + value; with None it subtracts unchecked, which at
an unsigned instantiation aborts when lo < value. -/
def ValueRange.prepare_sub_min (r : ValueRange) (value : Nat) (mn : Option Nat) : StepResult :=
  match mn with
  | some m => if r.lo < m + value then .err .underflow else .ok ⟨r.lo - value, r.hi⟩
  | none => if r.lo < value then .panic else .ok ⟨r.lo - value, r.hi⟩

/-- Operation rollback_add(value): lowers hi (unsigned subtraction), then
asserts lo ≤ hi; both failure modes abort. -/
def ValueRange.rollback_add (r : ValueRange) (value : Nat) : StepResult :=
  if value ≤ r.hi ∧ r.lo ≤ r.hi - value then .ok ⟨r.lo, r.hi - value⟩ else .panic

/-- Operation commit_add(value): raises lo, then asserts lo ≤ hi. -/
def ValueRange.commit_add (r : ValueRange) (value : Nat) : StepResult :=
  if r.lo + value ≤ r.hi then .ok ⟨r.lo + value, r.hi⟩ else .panic

/-- Operation commit_sub(value): lowers hi (unsigned subtraction), then
asserts lo ≤ hi; both failure modes abort. -/
def ValueRange.commit_sub (r : ValueRange) (value : Nat) : StepResult :=
  if value ≤ r.hi ∧ r.lo ≤ r.hi - value then .ok ⟨r.lo, r.hi - value⟩ else .panic

/-- Operation rollback_sub(value): raises lo, then asserts lo ≤ hi. -/
def ValueRange.rollback_sub (r : ValueRange) (value : Nat) : StepResult :=
  if r.lo + value ≤ r.hi then .ok ⟨r.lo + value, r.hi⟩ else .panic

/-- A range together with the ghost journal of its in-flight operations:
the values of the prepared-but-unresolved adds and subs. -/
structure TraceState where
  range : ValueRange
  pendingAdds : List Nat
  pendingSubs : List Nat
deriving Repr, DecidableEq

/-- States reachable from new(v) by successful operations obeying the
matching discipline of the claim: every commit or rollback consumes a
prepared-but-unresolved operation of the same value and kind.  A failed
prepare leaves the range unchanged, so it needs no constructor. -/
inductive Reachable (v : Nat) : TraceState → Prop where
  | init : Reachable v ⟨ValueRange.new v, [], []⟩
  | prep_add {r : ValueRange} {pa ps : List Nat} {w : Nat} {r' : ValueRange} :
      Reachable v ⟨r, pa, ps⟩ → r.prepare_add w = .ok r' →
      Reachable v ⟨r', w :: pa, ps⟩
  | prep_add_max {r : ValueRange} {pa ps : List Nat} {w mx : Nat} {r' : ValueRange} :
      Reachable v ⟨r, pa, ps⟩ → r.prepare_add_max w mx = .ok r' →
      Reachable v ⟨r', w :: pa, ps⟩
  | prep_sub {r : ValueRange} {pa ps : List Nat} {w : Nat} {r' : ValueRange} :
      Reachable v ⟨r, pa, ps⟩ → r.prepare_sub w = .ok r' →
      Reachable v ⟨r', pa, w :: ps⟩
  | prep_sub_min {r : ValueRange} {pa ps : List Nat} {w : Nat} {mn : Option Nat}
      {r' : ValueRange} :
      Reachable v ⟨r, pa, ps⟩ → r.prepare_sub_min w mn = .ok r' →
      Reachable v ⟨r', pa, w :: ps⟩
  | commit_add {r : ValueRange} {pa ps : List Nat} {w : Nat} {r' : ValueRange} :
      Reachable v ⟨r, pa, ps⟩ → w ∈ pa → r.commit_add w = .ok r' →
      Reachable v ⟨r', pa.erase w, ps⟩
  | rollback_add {r : ValueRange} {pa ps : List Nat} {w : Nat} {r' : ValueRange} :
      Reachable v ⟨r, pa, ps⟩ → w ∈ pa → r.rollback_add w = .ok r' →
      Reachable v ⟨r', pa.erase w, ps⟩
  | commit_sub {r : ValueRange} {pa ps : List Nat} {w : Nat} {r' : ValueRange} :
      Reachable v ⟨r, pa, ps⟩ → w ∈ ps → r.commit_sub w = .ok r' →
      Reachable v ⟨r', pa, ps.erase w⟩
  | rollback_sub {r : ValueRange} {pa ps : List Nat} {w : Nat} {r' : ValueRange} :
      Reachable v ⟨r, pa, ps⟩ → w ∈ ps → r.rollback_sub w = .ok r' →
      Reachable v ⟨r', pa, ps.erase w⟩

theorem sum_erase_of_mem {w : Nat} {l : List Nat} (h : w ∈ l) :
    l.sum = w + (l.erase w).sum := by
  have hp := (List.perm_cons_erase h).sum_eq
  simpa using hp

theorem reachable_hi_eq (v : Nat) (s : TraceState) (h : Reachable v s) :
    s.range.hi = s.range.lo + s.pendingAdds.sum + s.pendingSubs.sum := by
  induction h with
  | init => simp [ValueRange.new]
  | prep_add _ hstep ih =>
      simp only [ValueRange.prepare_add, StepResult.ok.injEq] at hstep
      subst hstep
      simp only [List.sum_cons] at *
      omega
  | prep_add_max _ hstep ih =>
      simp only [ValueRange.prepare_add_max] at hstep
      split at hstep
      · exact absurd hstep (by simp)
      · simp only [StepResult.ok.injEq] at hstep
        subst hstep
        simp only [List.sum_cons] at *
        omega
  | prep_sub _ hstep ih =>
      simp only [ValueRange.prepare_sub] at hstep
      split at hstep
      · exact absurd hstep (by simp)
      · simp only [StepResult.ok.injEq] at hstep
        subst hstep
        simp only [List.sum_cons] at *
        omega
  | prep_sub_min _ hstep ih =>
      simp only [ValueRange.prepare_sub_min] at hstep
      split at hstep <;> split at hstep
      · exact absurd hstep (by simp)
      · simp only [StepResult.ok.injEq] at hstep
        subst hstep
        simp only [List.sum_cons] at *
        omega
      · exact absurd hstep (by simp)
      · simp only [StepResult.ok.injEq] at hstep
        subst hstep
        simp only [List.sum_cons] at *
        omega
  | commit_add _ hmem hstep ih =>
      simp only [ValueRange.commit_add] at hstep
      split at hstep
      · simp only [StepResult.ok.injEq] at hstep
        subst hstep
        have herase := sum_erase_of_mem hmem
        simp only at *
        omega
      · exact absurd hstep (by simp)
  | rollback_add _ hmem hstep ih =>
      simp only [ValueRange.rollback_add] at hstep
      split at hstep
      · simp only [StepResult.ok.injEq] at hstep
        subst hstep
        have herase := sum_erase_of_mem hmem
        simp only at *
        omega
      · exact absurd hstep (by simp)
  | commit_sub _ hmem hstep ih =>
      simp only [ValueRange.commit_sub] at hstep
      split at hstep
      · simp only [StepResult.ok.injEq] at hstep
        subst hstep
        have herase := sum_erase_of_mem hmem
        simp only at *
        omega
      · exact absurd hstep (by simp)
  | rollback_sub _ hmem hstep ih =>
      simp only [ValueRange.rollback_sub] at hstep
      split at hstep
      · simp only [StepResult.ok.injEq] at hstep
        subst hstep
        have herase := sum_erase_of_mem hmem
        simp only at *
        omega
      · exact absurd hstep (by simp)

/-- C3: starting from new(v), along any sequence of operations in which
every commit or rollback matches a prior unresolved prepare of the same
kind and value, every state reached through successful operations
satisfies lo ≤ hi, and the commit/rollback operations enabled by the
discipline never abort (their internal lo ≤ hi assertion, and the unsigned
subtractions feeding it, always pass). -/
theorem c3_value_range_invariant (v : Nat) (s : TraceState) (h : Reachable v s) :
    s.range.lo ≤ s.range.hi ∧
    (∀ w ∈ s.pendingAdds,
      s.range.commit_add w ≠ StepResult.panic ∧
      s.range.rollback_add w ≠ StepResult.panic) ∧
    (∀ w ∈ s.pendingSubs,
      s.range.commit_sub w ≠ StepResult.panic ∧
      s.range.rollback_sub w ≠ StepResult.panic) := by
  have hinv := reachable_hi_eq v s h
  refine ⟨by omega, ?_, ?_⟩
  · intro w hw
    have hle : w ≤ s.pendingAdds.sum :=
      List.single_le_sum (fun x _ => Nat.zero_le x) w hw
    have hkey : s.range.lo + w ≤ s.range.hi := by omega
    constructor
    · simp [ValueRange.commit_add, hkey]
    · have h1 : w ≤ s.range.hi := by omega
      have h2 : s.range.lo ≤ s.range.hi - w := by omega
      simp [ValueRange.rollback_add, h1, h2]
  · intro w hw
    have hle : w ≤ s.pendingSubs.sum :=
      List.single_le_sum (fun x _ => Nat.zero_le x) w hw
    have hkey : s.range.lo + w ≤ s.range.hi := by omega
    constructor
    · have h1 : w ≤ s.range.hi := by omega
      have h2 : s.range.lo ≤ s.range.hi - w := by omega
      simp [ValueRange.commit_sub, h1, h2]
    · simp [ValueRange.rollback_sub, hkey]

/-- Witness for C3: the state reached from new(5) by prepare_add(3) has a
valid range and its pending add can be committed or rolled back. -/
theorem c3_value_range_invariant_witness :
    (TraceState.mk ⟨5, 8⟩ [3] []).range.lo ≤ (TraceState.mk ⟨5, 8⟩ [3] []).range.hi ∧
    (∀ w ∈ (TraceState.mk ⟨5, 8⟩ [3] []).pendingAdds,
      (TraceState.mk ⟨5, 8⟩ [3] []).range.commit_add w ≠ StepResult.panic ∧
      (TraceState.mk ⟨5, 8⟩ [3] []).range.rollback_add w ≠ StepResult.panic) ∧
    (∀ w ∈ (TraceState.mk ⟨5, 8⟩ [3] []).pendingSubs,
      (TraceState.mk ⟨5, 8⟩ [3] []).range.commit_sub w ≠ StepResult.panic ∧
      (TraceState.mk ⟨5, 8⟩ [3] []).range.rollback_sub w ≠ StepResult.panic) :=
  c3_value_range_invariant 5 ⟨⟨5, 8⟩, [3], []⟩
    (Reachable.prep_add Reachable.init rfl)

/-! ## Association-list storage helpers -/

/-- Load a key from an association-list map (Map::may_load). -/
def alookup {α β : Type} [DecidableEq α] (k : α) : List (α × β) → Option β
  | [] => none
  | (k', v) :: rest => if k' = k then some v else alookup k rest

/-- Save a key in an association-list map (Map::save): the new entry
replaces any stale entry for the same key. -/
def asave {α β : Type} [DecidableEq α] (k : α) (v : β) (l : List (α × β)) :
    List (α × β) :=
  (k, v) :: l.filter (fun e => decide (e.1 ≠ k))

/-- Remove a key from an association-list map (Map::remove). -/
def aremove {α β : Type} [DecidableEq α] (k : α) (l : List (α × β)) :
    List (α × β) :=
  l.filter (fun e => decide (e.1 ≠ k))

deriving instance DecidableEq for Except

/-! ## Vault (contracts/provider/vault/src/contract.rs) -/

/-- Addresses are opaque strings. -/
abbrev Addr := String

/-- Atomic scale of a cosmwasm Decimal (18 fractional digits). -/
def decimalFractional : Nat := 10 ^ 18

/-- Product Uint128 * Decimal, which rounds down in cosmwasm; both the
amount and the result are Uint128, the decimal is given in atomic units. -/
def mulDecimal (amount dec : Nat) : Nat := amount * dec / decimalFractional

/-- Lien record of the vault (vault state, fields fixed by their usage in
contract.rs): the committed claim amount of one lienholder on one user,
with its slashable fraction (a Decimal, in atomic units). -/
structure Lien where
  amount : Nat
  slashable : Nat
deriving Repr, DecidableEq

/-- Modelled from the spec: vault UserInfo (the provider vault state.rs is
not among the sources; contract.rs forces all three fields to be scalars).
Per spec section 3 the free collateral is the collateral minus the larger
of max_lien and total_slashable, and the collateral rule requires that
larger value to stay within the collateral. -/
structure UserInfo where
  collateral : Nat
  max_lien : Nat
  total_slashable : Nat
deriving Repr, DecidableEq

/-- Default UserInfo: everything zero. -/
def UserInfo.zero : UserInfo := ⟨0, 0, 0⟩

/-- Modelled from the spec: free_collateral = collateral − max(max_lien,
total_slashable).  The subtraction cannot underflow in states satisfying
the collateral rule, which every theorem using it assumes. -/
def UserInfo.free_collateral (u : UserInfo) : Nat :=
  u.collateral - Nat.max u.max_lien u.total_slashable

/-- Modelled from the spec: the collateral rule check,
max(max_lien, total_slashable) ≤ collateral. -/
def UserInfo.verify_collateral (u : UserInfo) : Bool :=
  decide (Nat.max u.max_lien u.total_slashable ≤ u.collateral)

/-- Kind of a pending vault tx (TxType in the vault txs module; the spec
lists the kinds Stake and Unstake). -/
inductive TxType where
  | stake
  | unstake
deriving Repr, DecidableEq

/-- Pending vault tx row, as persisted by maybe_stake. -/
structure Tx where
  ty : TxType
  amount : Nat
  slashable : Nat
  user : Addr
  lienholder : Addr
deriving Repr, DecidableEq

/-- Vault contract errors relevant to the embedded entry points; the
panicAssert variant stands for the abort of the Rust assert on the tx
kind, which is not a returned error. -/
inductive VaultError where
  | unexpectedDenom (expected : String)
  | insufficentBalance
  | claimsLocked (free : Nat)
  | txNotFound (id : Nat)
  | wrongContractTx (id : Nat) (sender : Addr)
  | panicAssert
deriving Repr, DecidableEq

/-- Entire stored state of the vault contract: the config denom, the lien
map keyed by (user, lienholder), the user map, the tx-id counter item and
the pending tx journal. -/
structure VaultState where
  denom : String
  liens : List ((Addr × Addr) × Lien)
  users : List (Addr × UserInfo)
  tx_count : Nat
  pending : List (Nat × Tx)
deriving Repr, DecidableEq

/-- Sum of the amounts of the pending Stake-kind txs of one user, as folded
by maybe_stake over the user-indexed journal. -/
def pendingStakeSum (user : Addr) (pending : List (Nat × Tx)) : Nat :=
  (pending.map (fun e =>
    if e.2.user = user ∧ e.2.ty = TxType.stake then e.2.amount else 0)).sum

/-- Function maybe_stake: checks the denom, computes the pending stake
(requested amount plus the user's outstanding Stake txs), tests the
collateral rule on copies of the user aggregates (using the slashable
fraction of the existing lien, or of the destination if there is none),
and on success allocates the next tx id and persists the Stake tx.  On
error nothing is persisted. -/
def maybe_stake (st : VaultState) (sender lienholder : Addr) (slashable : Nat)
    (denom : String) (amount : Nat) : Except VaultError (VaultState × Nat) :=
  if denom ≠ st.denom then .error (.unexpectedDenom st.denom) else
  let pending_amount := amount + pendingStakeSum sender st.pending
  let lien := (alookup (sender, lienholder) st.liens).getD ⟨0, slashable⟩
  let user := (alookup sender st.users).getD UserInfo.zero
  let user := { user with
    max_lien := Nat.max user.max_lien pending_amount,
    total_slashable := user.total_slashable + mulDecimal pending_amount lien.slashable }
  if ¬ user.verify_collateral then .error .insufficentBalance else
  let tx_id := st.tx_count + 1
  let new_tx : Tx := ⟨TxType.stake, amount, slashable, sender, lienholder⟩
  .ok ({ st with tx_count := tx_id, pending := asave tx_id new_tx st.pending }, tx_id)

/-- Entry point stake_remote, restricted to its effect on the vault
storage: it queries the destination for max_slash (here a parameter),
delegates to maybe_stake and emits receive_virtual_stake (the emitted
message carries no storage effect). -/
def stake_remote (st : VaultState) (sender contract : Addr) (max_slash : Nat)
    (denom : String) (amount : Nat) : Except VaultError (VaultState × Nat) :=
  maybe_stake st sender contract max_slash denom amount

/-- Entry point unbond: checks the denom, requires the amount to be within
the free collateral (else ClaimsLocked carrying the free collateral),
decreases the collateral and sends the tokens back; the returned number is
the amount of the BankMsg::Send to the caller. -/
def unbond (st : VaultState) (sender : Addr) (denom : String) (amount : Nat) :
    Except VaultError (VaultState × Nat) :=
  if st.denom ≠ denom then .error (.unexpectedDenom st.denom) else
  let user := (alookup sender st.users).getD UserInfo.zero
  let free := user.free_collateral
  if ¬ (free ≥ amount) then .error (.claimsLocked free) else
  let user := { user with collateral := user.collateral - amount }
  .ok ({ st with users := asave sender user st.users }, amount)

/-- Function commit_tx: loads the pending tx (asserting its kind is
Stake), verifies the sender is the recorded lienholder, recomputes the
lien and the user aggregates loaded from (tx.user, tx.lienholder) and
tx.user, re-checks the collateral rule, and removes the tx.  Note the
faithful oddity of the source: the updated lien is saved under the key
(sender, tx.lienholder) and the updated user info under the key sender,
not under tx.user. -/
def commit_tx (st : VaultState) (sender : Addr) (tx_id : Nat) :
    Except VaultError VaultState :=
  match alookup tx_id st.pending with
  | none => .error (.txNotFound tx_id)
  | some tx =>
    if tx.ty ≠ TxType.stake then .error .panicAssert else
    if tx.lienholder ≠ sender then .error (.wrongContractTx tx_id sender) else
    let lien := (alookup (tx.user, tx.lienholder) st.liens).getD ⟨0, tx.slashable⟩
    let lien := { lien with amount := lien.amount + tx.amount }
    let user := (alookup tx.user st.users).getD UserInfo.zero
    let user := { user with
      max_lien := Nat.max user.max_lien lien.amount,
      total_slashable := user.total_slashable + mulDecimal tx.amount lien.slashable }
    if ¬ user.verify_collateral then .error .insufficentBalance else
    .ok { st with
      liens := asave (sender, tx.lienholder) lien st.liens,
      users := asave sender user st.users,
      pending := aremove tx_id st.pending }

/-- Function rollback_tx: loads the pending tx (asserting its kind is
Stake), verifies the sender is the recorded lienholder, and removes the
tx; nothing else in storage is touched. -/
def rollback_tx (st : VaultState) (sender : Addr) (tx_id : Nat) :
    Except VaultError VaultState :=
  match alookup tx_id st.pending with
  | none => .error (.txNotFound tx_id)
  | some tx =>
    if tx.ty ≠ TxType.stake then .error .panicAssert else
    if tx.lienholder ≠ sender then .error (.wrongContractTx tx_id sender) else
    .ok { st with pending := aremove tx_id st.pending }

/-- Default page limit of the list queries (both contracts). -/
def DEFAULT_PAGE_LIMIT : Nat := 10

/-- Maximum page limit of the list queries (both contracts). -/
def MAX_PAGE_LIMIT : Nat := 30

/-- Function clamp_page_limit, identical in the vault and the
external-staking contract: limit.unwrap_or(DEFAULT).max(MAX). -/
def clamp_page_limit (limit : Option Nat) : Nat :=
  Nat.max (limit.getD DEFAULT_PAGE_LIMIT) MAX_PAGE_LIMIT

/-! ## Vault theorems -/

theorem alookup_eq_none {α β : Type} [DecidableEq α] {k : α} {l : List (α × β)}
    (h : ∀ e ∈ l, e.1 ≠ k) : alookup k l = none := by
  induction l with
  | nil => rfl
  | cons e rest ih =>
      obtain ⟨k', v⟩ := e
      simp only [alookup]
      rw [if_neg (h (k', v) (List.mem_cons_self _ _))]
      exact ih (fun x hx => h x (List.mem_cons_of_mem _ hx))

theorem aremove_eq_self {α β : Type} [DecidableEq α] {k : α} {l : List (α × β)}
    (h : ∀ e ∈ l, e.1 ≠ k) : aremove k l = l := by
  unfold aremove
  exact List.filter_eq_self.mpr (fun a ha => by simpa using h a ha)

theorem rollback_tx_of_found (st : VaultState) (sender : Addr) (id : Nat)
    (tx : Tx) (hfind : alookup id st.pending = some tx)
    (hty : tx.ty = TxType.stake) (hlh : tx.lienholder = sender) :
    rollback_tx st sender id = .ok { st with pending := aremove id st.pending } := by
  simp [rollback_tx, hfind, hty, hlh]

/-- C1: stake_remote computes the pending stake as the requested amount
plus the sum of the user's outstanding Stake-kind txs and applies it as a
hypothetical add to copies of max_lien and total_slashable (with the
slashable fraction of the existing lien, or the destination's max_slash
for a first stake).  It fails with InsufficentBalance, persisting nothing,
exactly when the resulting max(max_lien, total_slashable) would exceed the
collateral; otherwise it persists the Stake tx with the user, destination,
amount and slashable fraction, and returns its id. -/
theorem c1_stake_remote_pending_check (st : VaultState) (sender lienholder : Addr)
    (max_slash amount : Nat) :
    (((alookup sender st.users).getD UserInfo.zero).collateral <
        Nat.max
          (Nat.max ((alookup sender st.users).getD UserInfo.zero).max_lien
            (amount + pendingStakeSum sender st.pending))
          (((alookup sender st.users).getD UserInfo.zero).total_slashable +
            mulDecimal (amount + pendingStakeSum sender st.pending)
              (((alookup (sender, lienholder) st.liens).getD
                ⟨0, max_slash⟩).slashable)) →
      stake_remote st sender lienholder max_slash st.denom amount =
        .error .insufficentBalance) ∧
    (Nat.max
        (Nat.max ((alookup sender st.users).getD UserInfo.zero).max_lien
          (amount + pendingStakeSum sender st.pending))
        (((alookup sender st.users).getD UserInfo.zero).total_slashable +
          mulDecimal (amount + pendingStakeSum sender st.pending)
            (((alookup (sender, lienholder) st.liens).getD
              ⟨0, max_slash⟩).slashable)) ≤
        ((alookup sender st.users).getD UserInfo.zero).collateral →
      stake_remote st sender lienholder max_slash st.denom amount =
        .ok ({ st with
          tx_count := st.tx_count + 1,
          pending := asave (st.tx_count + 1)
            ⟨TxType.stake, amount, max_slash, sender, lienholder⟩ st.pending },
          st.tx_count + 1)) := by
  constructor
  · intro hc
    simp only [stake_remote, maybe_stake, UserInfo.verify_collateral]
    rw [if_neg (by simp)]
    rw [if_pos]
    simp only [decide_eq_true_eq, not_le]
    exact hc
  · intro hc
    simp only [stake_remote, maybe_stake, UserInfo.verify_collateral]
    rw [if_neg (by simp)]
    rw [if_neg]
    simp only [decide_eq_true_eq, not_not]
    exact hc

/-- Witness for C1: a user with 300 bonded and no outstanding liens
remote-stakes 100 at a 5 percent max_slash destination; the tx is
persisted with id 1. -/
theorem c1_stake_remote_pending_check_witness :
    stake_remote
      ({ denom := "uosmo", liens := [], users := [("alice", ⟨300, 0, 0⟩)],
         tx_count := 0, pending := [] }) "alice" "dest" 50000000000000000
      "uosmo" 100 =
      .ok ({ denom := "uosmo", liens := [], users := [("alice", ⟨300, 0, 0⟩)],
             tx_count := 1,
             pending := [(1, ⟨TxType.stake, 100, 50000000000000000, "alice",
               "dest"⟩)] }, 1) :=
  (c1_stake_remote_pending_check
    ({ denom := "uosmo", liens := [], users := [("alice", ⟨300, 0, 0⟩)],
       tx_count := 0, pending := [] }) "alice" "dest" 50000000000000000 100).2
    (by decide)

/-- C5: unbond succeeds exactly when the amount is within the free
collateral (collateral minus the larger of max_lien and total_slashable),
in which case it decreases the collateral by the amount and returns the
tokens; otherwise it fails with ClaimsLocked carrying the free collateral
and changes nothing.  The hypothesis is the collateral rule for the user,
under which the unsigned subtraction inside free_collateral is exact. -/
theorem c5_unbond_free_collateral (st : VaultState) (sender : Addr) (amount : Nat)
    (hinv : Nat.max ((alookup sender st.users).getD UserInfo.zero).max_lien
        ((alookup sender st.users).getD UserInfo.zero).total_slashable ≤
      ((alookup sender st.users).getD UserInfo.zero).collateral) :
    (((alookup sender st.users).getD UserInfo.zero).free_collateral < amount →
      unbond st sender st.denom amount =
        .error (.claimsLocked
          ((alookup sender st.users).getD UserInfo.zero).free_collateral)) ∧
    (amount ≤ ((alookup sender st.users).getD UserInfo.zero).free_collateral →
      unbond st sender st.denom amount =
        .ok ({ st with
               users := asave sender
                 ({ (alookup sender st.users).getD UserInfo.zero with
                    collateral :=
                      ((alookup sender st.users).getD
                        UserInfo.zero).collateral - amount })
                 st.users }, amount)) := by
  constructor
  · intro hc
    simp only [unbond]
    rw [if_neg (by simp)]
    rw [if_pos]
    simp only [ge_iff_le, not_le]
    exact hc
  · intro hc
    simp only [unbond]
    rw [if_neg (by simp)]
    rw [if_neg]
    simp only [ge_iff_le, not_not, not_lt]
    exact hc

/-- Witness for C5: with 300 bonded, a 100 max_lien and a 5 total
slashable, free collateral is 200; unbonding 200 succeeds and unbonding
201 is rejected with ClaimsLocked 200. -/
theorem c5_unbond_free_collateral_witness :
    unbond ({ denom := "uosmo", liens := [],
              users := [("alice", ⟨300, 100, 5⟩)],
              tx_count := 0, pending := [] }) "alice" "uosmo" 200 =
      .ok ({ denom := "uosmo", liens := [],
             users := [("alice", ⟨100, 100, 5⟩)], tx_count := 0,
             pending := [] }, 200) :=
  (c5_unbond_free_collateral
    ({ denom := "uosmo", liens := [], users := [("alice", ⟨300, 100, 5⟩)],
       tx_count := 0, pending := [] }) "alice" 200 (by decide)).2 (by decide)

/-- Concrete vault state for the C2 run: user alice has 300 bonded and a
pending Stake tx of 100 towards the destination dest with a 5 percent
slashable fraction. -/
def c2State : VaultState :=
  { denom := "uosmo", liens := [], users := [("alice", ⟨300, 0, 0⟩)],
    tx_count := 1,
    pending := [(1, ⟨TxType.stake, 100, 50000000000000000, "alice", "dest"⟩)] }

/-- Resulting vault state of the C2 run, showing where commit_tx actually
writes: the updated lien lands under (dest, dest) and the updated user
aggregates under dest, while the records of alice are untouched. -/
def c2Result : VaultState :=
  { denom := "uosmo",
    liens := [(("dest", "dest"), ⟨100, 50000000000000000⟩)],
    users := [("dest", ⟨300, 100, 5⟩), ("alice", ⟨300, 0, 0⟩)],
    tx_count := 1,
    pending := [] }

/-- C2: commit_tx called by the recorded destination removes the tx and
recomputes the lien and user aggregates, but saves them under the sender
key: the lien keyed by (tx.user, tx.destination) and the user record of
tx.user stay unchanged, while entries keyed by the destination are
created.  This contradicts the claim (and the function's own loads, which
use tx.user). -/
theorem c2_commit_tx_misdirected_saves :
    commit_tx c2State "dest" 1 = .ok c2Result ∧
    alookup ("alice", "dest") c2Result.liens = none ∧
    alookup "alice" c2Result.users = some ⟨300, 0, 0⟩ ∧
    alookup ("dest", "dest") c2Result.liens = some ⟨100, 50000000000000000⟩ ∧
    alookup "dest" c2Result.users = some ⟨300, 100, 5⟩ := by decide

/-- Initial vault state for the C4 run: alice has 300 bonded, the journal
is empty and no tx id has ever been allocated. -/
def c4Start : VaultState :=
  { denom := "uosmo", liens := [], users := [("alice", ⟨300, 0, 0⟩)],
    tx_count := 0, pending := [] }

/-- Vault state after the C4 stake_remote: tx 1 is pending and the
counter item has been written. -/
def c4Mid : VaultState :=
  { c4Start with
    tx_count := 1,
    pending := [(1, ⟨TxType.stake, 100, 50000000000000000, "alice", "dest"⟩)] }

/-- C4 counterexample: after stake_remote of 100 by alice towards dest and
a rollback_tx by dest, the stored state differs from the pre-stake state:
the tx-id counter item holds 1 instead of 0, so the round trip is not
bitwise equal as claimed. -/
theorem c4_rollback_keeps_tx_counter :
    stake_remote c4Start "alice" "dest" 50000000000000000 "uosmo" 100 =
      .ok (c4Mid, 1) ∧
    rollback_tx c4Mid "dest" 1 = .ok ({ c4Start with tx_count := 1 }) ∧
    ({ c4Start with tx_count := 1 } : VaultState) ≠ c4Start := by decide

/-- C4 amended: after a successful stake_remote producing tx id, a
rollback_tx by the recorded destination returns every stored component of
the vault bitwise equal to the pre-stake state except the monotonic tx-id
counter, which remains incremented by one; the journal holds no trace of
the tx.  The freshness hypothesis (every journal key is at most the
counter) is the allocation discipline of next_tx_id. -/
theorem c4_stake_remote_rollback_amended (st : VaultState)
    (sender lienholder : Addr) (max_slash amount : Nat)
    (st1 : VaultState) (id : Nat)
    (hok : stake_remote st sender lienholder max_slash st.denom amount =
      .ok (st1, id))
    (hfresh : ∀ e ∈ st.pending, e.1 ≤ st.tx_count) :
    rollback_tx st1 lienholder id =
      .ok ({ st with tx_count := st.tx_count + 1 }) ∧
    alookup id ({ st with tx_count := st.tx_count + 1 } : VaultState).pending =
      none := by
  have hne : ∀ e ∈ st.pending, e.1 ≠ st.tx_count + 1 := by
    intro e he
    have := hfresh e he
    omega
  have h1 : List.filter (fun e => decide (e.1 ≠ st.tx_count + 1))
      st.pending = st.pending := aremove_eq_self hne
  simp only [stake_remote, maybe_stake] at hok
  rw [if_neg (by simp)] at hok
  split at hok
  · exact absurd hok (by simp)
  · simp only [Except.ok.injEq, Prod.mk.injEq] at hok
    obtain ⟨hst1, hid⟩ := hok
    subst hst1
    subst hid
    have hcons : asave (st.tx_count + 1)
        (⟨TxType.stake, amount, max_slash, sender, lienholder⟩ : Tx)
        st.pending =
        (st.tx_count + 1,
          (⟨TxType.stake, amount, max_slash, sender, lienholder⟩ : Tx)) ::
          st.pending := by
      simp only [asave]
      rw [h1]
    constructor
    · rw [hcons]
      have hfind : alookup (st.tx_count + 1)
          ((st.tx_count + 1,
            (⟨TxType.stake, amount, max_slash, sender, lienholder⟩ : Tx)) ::
            st.pending) =
          some ⟨TxType.stake, amount, max_slash, sender, lienholder⟩ := by
        simp [alookup]
      rw [rollback_tx_of_found _ lienholder _ _ hfind rfl rfl]
      have hrem : aremove (st.tx_count + 1)
          ((st.tx_count + 1,
            (⟨TxType.stake, amount, max_slash, sender, lienholder⟩ : Tx)) ::
            st.pending) = st.pending := by
        unfold aremove
        rw [List.filter_cons_of_neg (by simp)]
        exact h1
      rw [show aremove (st.tx_count + 1)
          (({ st with
            tx_count := st.tx_count + 1,
            pending := (st.tx_count + 1,
              (⟨TxType.stake, amount, max_slash, sender, lienholder⟩ : Tx)) ::
              st.pending } : VaultState).pending) = st.pending from hrem]
    · exact alookup_eq_none hne

/-- Witness for the amended C4: the c4Start run (bond 300, stake_remote
100, rollback by the destination) lands exactly on c4Start with the
counter at 1 and an empty journal. -/
theorem c4_stake_remote_rollback_amended_witness :
    rollback_tx c4Mid "dest" 1 = .ok ({ c4Start with tx_count := 1 }) ∧
    alookup 1 ({ c4Start with tx_count := 1 } : VaultState).pending = none := by
  have h := c4_stake_remote_rollback_amended c4Start "alice" "dest"
    50000000000000000 100 c4Mid 1 (by decide) (by decide)
  simpa using h

/-- C9: the pagination limit is not clamped to the range from 1 to 30 with
a default of 10; the source computes max(limit.unwrap_or(10), 30), so a
provided limit of 5 yields 30 (the claim says 5), a provided limit of 100
yields 100 (the claim says 30), and an omitted limit yields 30 (the claim
says 10). -/
theorem c9_clamp_page_limit_is_max :
    clamp_page_limit (some 5) = 30 ∧ clamp_page_limit (some 100) = 100 ∧
    clamp_page_limit none = 30 := by decide

/-! ## External staking (contracts/provider/external-staking/src/contract.rs) -/

/-- Lock state of a mesh-sync Lockable.  Modelled from the spec: the
mesh-sync crate source beyond range.rs is absent; the usage in the
external-staking contract fixes the semantics (write access requires no
lock, reading is refused under a write lock). -/
inductive Lock where
  | unlocked
  | writeLocked
deriving Repr, DecidableEq

/-- Modelled from the spec: a value guarded by a lock (mesh-sync
Lockable), as used for stakes and distributions. -/
structure Lockable (α : Type) where
  lock : Lock
  inner : α
deriving Repr, DecidableEq

/-- One pending unbond entry: the amount scheduled for release at the
given timestamp (nanoseconds). -/
structure PendingUnbond where
  amount : Nat
  release_at : Nat
deriving Repr, DecidableEq

/-- Modelled from the spec: the signed points-alignment accumulator kept
with each stake so that stake-size changes do not retroactively change
rewards (the external-staking state.rs is absent from the sources). -/
structure PointsAlignment where
  alignment : Int
deriving Repr, DecidableEq

/-- Modelled from the spec: stake_increased(amount, points_per_stake)
subtracts points_per_stake times amount from the alignment. -/
def PointsAlignment.stake_increased (pa : PointsAlignment)
    (amount points_per_stake : Nat) : PointsAlignment :=
  ⟨pa.alignment - ((points_per_stake * amount : Nat) : Int)⟩

/-- Modelled from the spec: stake_decreased(amount, points_per_stake) adds
points_per_stake times amount to the alignment. -/
def PointsAlignment.stake_decreased (pa : PointsAlignment)
    (amount points_per_stake : Nat) : PointsAlignment :=
  ⟨pa.alignment + ((points_per_stake * amount : Nat) : Int)⟩

/-- Modelled from the spec: align(points) adds the signed alignment to the
points; the result converts back to an unsigned integer, which fails when
it would be negative (none models the aborted conversion). -/
def PointsAlignment.align (pa : PointsAlignment) (points : Nat) : Option Nat :=
  let s : Int := (points : Int) + pa.alignment
  if s < 0 then none else some s.toNat

/-- Per (user, validator) stake record of the external-staking contract:
the staked amount, the pending unbonds (push at the tail), the withdrawn
rewards counter and the points alignment.  Field names follow the source
(stake, pending_unbonds, withdrawn_funds, points_alignment). -/
structure Stake where
  stake : Nat
  pending_unbonds : List PendingUnbond
  withdrawn_funds : Nat
  points_alignment : PointsAlignment
deriving Repr, DecidableEq

/-- Default stake: nothing staked yet. -/
def Stake.zero : Stake := ⟨0, [], 0, ⟨0⟩⟩

/-- Per-validator reward distribution record: total stake, cumulative
scaled points per stake unit and the sub-point leftover. -/
structure Distribution where
  total_stake : Nat
  points_per_stake : Nat
  points_leftover : Nat
deriving Repr, DecidableEq

/-- Default distribution: all zero. -/
def Distribution.zero : Distribution := ⟨0, 0, 0⟩

/-- Kind of a pending external-staking tx. -/
inductive ETxType where
  | inFlightRemoteStaking
  | inFlightRemoteUnstaking
deriving Repr, DecidableEq

/-- Pending external-staking tx row. -/
structure ETx where
  id : Nat
  ty : ETxType
  amount : Nat
  user : Addr
  validator : String
deriving Repr, DecidableEq

/-- External-staking contract errors relevant to the embedded entry
points. -/
inductive ESError where
  | invalidDenom (expected : String)
  | notEnoughStake (stake : Nat)
  | unauthorized
  | lockViolation
  | stdNotFound
  | paymentError
  | conversionOverflow
deriving Repr, DecidableEq

/-- Result of an external-staking entry point: a value, a returned typed
error (no state persisted), or an abort (panic) inside the contract. -/
inductive ExecResult (α : Type) where
  | ok (value : α)
  | err (e : ESError)
  | panic
deriving Repr, DecidableEq

/-- Immutable configuration of the external-staking contract (the vault
address and authorized endpoint play no role in the embedded entry
points). -/
structure ESConfig where
  denom : String
  rewards_denom : String
  unbonding_period : Nat
deriving Repr, DecidableEq

/-- Entire stored state of the external-staking contract: the config, the
stake map keyed by (owner, validator), the distribution map keyed by
validator, and the pending tx journal. -/
structure ESState where
  config : ESConfig
  stakes : List ((Addr × String) × Lockable Stake)
  distribution : List (String × Lockable Distribution)
  pending_txs : List (Nat × ETx)
deriving Repr, DecidableEq

/-- Timestamp::plus_seconds on nanosecond timestamps. -/
def plusSeconds (t s : Nat) : Nat := t + s * 1000000000

/-- Scale of the distribution points (DISTRIBUTION_POINTS_SCALE = 10^9). -/
def DISTRIBUTION_POINTS_SCALE : Nat := 1000000000

/-- Entry point unstake: checks the denom, reads the stake (refused under
a write lock), loads the distribution (error when absent) and opens write
access to both, requires the stake to cover the amount (else
NotEnoughStake carrying the current stake), then decrements the stake,
appends the pending unbond releasing at now plus the unbonding period,
realigns the reward points, decrements the distribution total (underflow
aborts), write-locks the stake and saves both records.  No pending tx is
written (the transport interaction is left as a todo in the source). -/
def unstake (st : ESState) (sender : Addr) (validator : String)
    (denom : String) (amount : Nat) (now : Nat) : ExecResult ESState :=
  if denom ≠ st.config.denom then .err (.invalidDenom st.config.denom) else
  let stake_lock := (alookup (sender, validator) st.stakes).getD ⟨.unlocked, Stake.zero⟩
  if stake_lock.lock = .writeLocked then .err .lockViolation else
  match alookup validator st.distribution with
  | none => .err .stdNotFound
  | some distribution_lock =>
    if distribution_lock.lock ≠ .unlocked then .err .lockViolation else
    let distribution := distribution_lock.inner
    if ¬ (stake_lock.inner.stake ≥ amount) then
      .err (.notEnoughStake stake_lock.inner.stake) else
    if stake_lock.lock ≠ .unlocked then .err .lockViolation else
    let stake := stake_lock.inner
    let stake := { stake with stake := stake.stake - amount }
    let stake := { stake with
      pending_unbonds := stake.pending_unbonds ++
        [(⟨amount, plusSeconds now st.config.unbonding_period⟩ : PendingUnbond)] }
    let stake := { stake with
      points_alignment :=
        stake.points_alignment.stake_decreased amount distribution.points_per_stake }
    if distribution.total_stake < amount then .panic else
    let distribution := { distribution with
      total_stake := distribution.total_stake - amount }
    .ok { st with
      stakes := asave (sender, validator) ⟨Lock.writeLocked, stake⟩ st.stakes,
      distribution := asave validator ⟨distribution_lock.lock, distribution⟩
        st.distribution }

/-- Entry point distribute_rewards: must_pay demands exactly the rewards
denom with a positive amount; the distribution is loaded or defaulted and
opened for write; the points to distribute are the paid amount scaled by
DISTRIBUTION_POINTS_SCALE plus the leftover, divided by the total stake.
The division is the unchecked Uint256 division of the source: with a zero
total stake it aborts instead of returning an error. -/
def distribute_rewards (st : ESState) (validator : String)
    (paid_denom : String) (paid_amount : Nat) : ExecResult ESState :=
  if paid_denom ≠ st.config.rewards_denom then .err .paymentError else
  if paid_amount = 0 then .err .paymentError else
  let distribution_lock :=
    (alookup validator st.distribution).getD ⟨.unlocked, Distribution.zero⟩
  if distribution_lock.lock ≠ .unlocked then .err .lockViolation else
  let distribution := distribution_lock.inner
  let total_stake := distribution.total_stake
  let points_distributed :=
    paid_amount * DISTRIBUTION_POINTS_SCALE + distribution.points_leftover
  if total_stake = 0 then .panic else
  let points_per_stake := points_distributed / total_stake
  let distribution := { distribution with
    points_leftover := points_distributed - points_per_stake * total_stake,
    points_per_stake := distribution.points_per_stake + points_per_stake }
  .ok { st with
    distribution := asave validator ⟨distribution_lock.lock, distribution⟩
      st.distribution }

/-- Function calculate_reward: the points are points_per_stake times the
stake, adjusted by the signed alignment; the total is the floor of the
adjusted points divided by DISTRIBUTION_POINTS_SCALE, converted to
Uint128 (conversion failure is a returned error), and the reward is the
total minus the already-withdrawn funds (unsigned underflow aborts). -/
def calculate_reward (stake : Stake) (distribution : Distribution) :
    ExecResult Nat :=
  let points := distribution.points_per_stake * stake.stake
  match stake.points_alignment.align points with
  | none => .panic
  | some aligned =>
    let total := aligned / DISTRIBUTION_POINTS_SCALE
    if total ≥ 2 ^ 128 then .err .conversionOverflow else
    if total < stake.withdrawn_funds then .panic else
    .ok (total - stake.withdrawn_funds)

/-- Entry point withdraw_rewards: opens the stake and the distribution for
write (defaulting absent records), computes the reward; when it is zero
nothing is saved and no tokens move, otherwise the withdrawn counter is
increased by the reward and a bank send of exactly the reward in the
rewards denom goes to the caller.  The returned list holds the
(recipient, amount) pairs of the emitted bank sends. -/
def withdraw_rewards (st : ESState) (sender : Addr) (validator : String) :
    ExecResult (ESState × List (Addr × Nat)) :=
  let stake_lock := (alookup (sender, validator) st.stakes).getD ⟨.unlocked, Stake.zero⟩
  if stake_lock.lock ≠ .unlocked then .err .lockViolation else
  let distribution_lock :=
    (alookup validator st.distribution).getD ⟨.unlocked, Distribution.zero⟩
  if distribution_lock.lock ≠ .unlocked then .err .lockViolation else
  match calculate_reward stake_lock.inner distribution_lock.inner with
  | .panic => .panic
  | .err e => .err e
  | .ok amount =>
    if amount = 0 then .ok (st, [])
    else
      let stake := stake_lock.inner
      let stake := { stake with withdrawn_funds := stake.withdrawn_funds + amount }
      .ok ({ st with
        stakes := asave (sender, validator) ⟨stake_lock.lock, stake⟩ st.stakes },
        [(sender, amount)])

/-! ## External-staking theorems -/

theorem alookup_asave_self {α β : Type} [DecidableEq α] (k : α) (v : β)
    (l : List (α × β)) : alookup k (asave k v l) = some v := by
  simp [asave, alookup]

/-- Concrete external-staking state for the C6 run: alice has 200 staked
on val1, the distribution carries the same total, nothing is locked and
the journal is empty. -/
def c6State : ESState :=
  { config := ⟨"uosmo", "ureward", 100⟩,
    stakes := [(("alice", "val1"), ⟨Lock.unlocked, ⟨200, [], 0, ⟨0⟩⟩⟩)],
    distribution := [("val1", ⟨Lock.unlocked, ⟨200, 0, 0⟩⟩)],
    pending_txs := [] }

/-- External-staking state after the C6 unstake of 50 at time 1000: the
stake dropped to 150 and was write-locked, the unbond of 50 matures at
now plus the unbonding period, the distribution total dropped to 150, and
the tx journal is still empty. -/
def c6After : ESState :=
  { config := ⟨"uosmo", "ureward", 100⟩,
    stakes := [(("alice", "val1"),
      ⟨Lock.writeLocked, ⟨150, [⟨50, 100000001000⟩], 0, ⟨0⟩⟩⟩)],
    distribution := [("val1", ⟨Lock.unlocked, ⟨150, 0, 0⟩⟩)],
    pending_txs := [] }

/-- C6 counterexample: a successful unstake leaves the pending-tx journal
empty; no tx of kind InFlightRemoteUnstaking is opened, contradicting the
final conjunct of the claim. -/
theorem c6_unstake_opens_no_tx :
    unstake c6State "alice" "val1" "uosmo" 50 1000 = .ok c6After ∧
    c6After.pending_txs = [] := by decide

/-- C6 amended: unstake requires the stake to be at least the amount,
failing with NotEnoughStake carrying the current stake otherwise; on
success it decrements the stake and the distribution total, realigns the
reward points via stake_decreased, appends the pending unbond with
release_at equal to now plus the unbonding period at the tail, and
write-locks the stake record; it opens no pending tx (the transport
interaction is a todo in this version of the source). -/
theorem c6_unstake_amended (st : ESState) (sender : Addr) (validator : String)
    (amount now : Nat) (stk : Stake) (dist : Distribution)
    (hs : alookup (sender, validator) st.stakes = some ⟨Lock.unlocked, stk⟩)
    (hd : alookup validator st.distribution = some ⟨Lock.unlocked, dist⟩)
    (htot : amount ≤ dist.total_stake) :
    (stk.stake < amount →
      unstake st sender validator st.config.denom amount now =
        .err (.notEnoughStake stk.stake)) ∧
    (amount ≤ stk.stake →
      unstake st sender validator st.config.denom amount now =
        .ok { st with
          stakes := asave (sender, validator)
            (⟨Lock.writeLocked,
              ⟨stk.stake - amount,
                stk.pending_unbonds ++
                  [⟨amount, plusSeconds now st.config.unbonding_period⟩],
                stk.withdrawn_funds,
                stk.points_alignment.stake_decreased amount
                  dist.points_per_stake⟩⟩ : Lockable Stake)
            st.stakes,
          distribution := asave validator
            (⟨Lock.unlocked,
              { dist with total_stake := dist.total_stake - amount }⟩ :
              Lockable Distribution) st.distribution } ∧
      ({ st with
          stakes := asave (sender, validator)
            (⟨Lock.writeLocked,
              ⟨stk.stake - amount,
                stk.pending_unbonds ++
                  [⟨amount, plusSeconds now st.config.unbonding_period⟩],
                stk.withdrawn_funds,
                stk.points_alignment.stake_decreased amount
                  dist.points_per_stake⟩⟩ : Lockable Stake)
            st.stakes,
          distribution := asave validator
            (⟨Lock.unlocked,
              { dist with total_stake := dist.total_stake - amount }⟩ :
              Lockable Distribution) st.distribution } : ESState).pending_txs =
        st.pending_txs) := by
  constructor
  · intro hc
    simp [unstake, hs, hd, not_le.mpr hc]
  · intro hc
    refine ⟨?_, rfl⟩
    simp [unstake, hs, hd, hc, not_lt.mpr htot]

/-- Witness for the amended C6: the c6State run through the amended
theorem yields exactly c6After. -/
theorem c6_unstake_amended_witness :
    unstake c6State "alice" "val1" "uosmo" 50 1000 = .ok c6After := by
  have h := (c6_unstake_amended c6State "alice" "val1" 50 1000
    ⟨200, [], 0, ⟨0⟩⟩ ⟨200, 0, 0⟩ rfl rfl (by decide)).2 (by decide)
  simpa [c6State, c6After, asave] using h.1

/-- Concrete external-staking state for the C7 run: no distribution
exists for val1 (so its total stake defaults to zero). -/
def c7State : ESState :=
  { config := ⟨"uosmo", "ureward", 100⟩,
    stakes := [],
    distribution := [],
    pending_txs := [] }

/-- C7: distributing a positive reward over a validator with zero total
stake aborts in the unchecked Uint256 division (a panic), instead of
being rejected with a typed error as the claim states. -/
theorem c7_distribute_rewards_zero_stake_panics :
    distribute_rewards c7State "val1" "ureward" 100 = .panic := by decide

/-- Stored state after a withdraw_rewards that paid a positive amount:
the stake record is re-saved with its withdrawn-rewards counter increased
by the amount paid; everything else is untouched. -/
def afterWithdraw (st : ESState) (sender : Addr) (validator : String)
    (stk : Stake) (amount : Nat) : ESState :=
  { st with
    stakes := asave (sender, validator)
      (⟨Lock.unlocked,
        { stk with withdrawn_funds := stk.withdrawn_funds + amount }⟩ :
        Lockable Stake)
      st.stakes }

theorem withdraw_rewards_spec (st : ESState) (sender : Addr)
    (validator : String) (stk : Stake) (dist : Distribution) (q : Nat)
    (hs : alookup (sender, validator) st.stakes = some ⟨Lock.unlocked, stk⟩)
    (hd : alookup validator st.distribution = some ⟨Lock.unlocked, dist⟩)
    (hq : q = ((dist.points_per_stake * stk.stake : Int) +
      stk.points_alignment.alignment).toNat / DISTRIBUTION_POINTS_SCALE)
    (hnn : 0 ≤ (dist.points_per_stake * stk.stake : Int) +
      stk.points_alignment.alignment)
    (hfit : q < 2 ^ 128)
    (hwd : stk.withdrawn_funds ≤ q) :
    withdraw_rewards st sender validator =
      if q - stk.withdrawn_funds = 0 then .ok (st, [])
      else .ok (afterWithdraw st sender validator stk (q - stk.withdrawn_funds),
        [(sender, q - stk.withdrawn_funds)]) := by
  subst hq
  have hnotlt : ¬ ((dist.points_per_stake * stk.stake : Int) +
      stk.points_alignment.alignment < 0) := not_lt.mpr hnn
  have hnotge : ¬ (2 ^ 128 ≤ ((dist.points_per_stake * stk.stake : Int) +
      stk.points_alignment.alignment).toNat / DISTRIBUTION_POINTS_SCALE) :=
    not_le.mpr hfit
  have hnotlt2 : ¬ (((dist.points_per_stake * stk.stake : Int) +
      stk.points_alignment.alignment).toNat / DISTRIBUTION_POINTS_SCALE <
      stk.withdrawn_funds) := not_lt.mpr hwd
  simp [withdraw_rewards, afterWithdraw, hs, hd, calculate_reward,
    PointsAlignment.align, hnotlt, hnotge, hnotlt2]
  rw [if_neg (by simpa using hnotge)]

/-- C8: withdraw_rewards pays exactly the floor of (points_per_stake times
the stake amount, adjusted by the signed points alignment) divided by
DISTRIBUTION_POINTS_SCALE, minus the already-withdrawn rewards, and
increments the withdrawn-rewards counter of the stake by the amount paid
(when that amount is zero nothing is sent or saved).  The hypotheses name
the stored records and rule out the numeric aborts (negative alignment
result, Uint128 conversion overflow, withdrawn exceeding the total). -/
theorem c8_withdraw_rewards_pays_exact (st : ESState) (sender : Addr)
    (validator : String) (stk : Stake) (dist : Distribution) (q : Nat)
    (hs : alookup (sender, validator) st.stakes = some ⟨Lock.unlocked, stk⟩)
    (hd : alookup validator st.distribution = some ⟨Lock.unlocked, dist⟩)
    (hq : q = ((dist.points_per_stake * stk.stake : Int) +
      stk.points_alignment.alignment).toNat / DISTRIBUTION_POINTS_SCALE)
    (hnn : 0 ≤ (dist.points_per_stake * stk.stake : Int) +
      stk.points_alignment.alignment)
    (hfit : q < 2 ^ 128)
    (hwd : stk.withdrawn_funds ≤ q) :
    withdraw_rewards st sender validator =
      if q - stk.withdrawn_funds = 0 then .ok (st, [])
      else .ok (afterWithdraw st sender validator stk (q - stk.withdrawn_funds),
        [(sender, q - stk.withdrawn_funds)]) :=
  withdraw_rewards_spec st sender validator stk dist q hs hd hq hnn hfit hwd

/-- Concrete external-staking state for the C8 and C10 runs: alice has
100 staked on val1, the distribution has accumulated two scale units of
points per stake, and 50 of the 200 owed has been withdrawn already. -/
def c8State : ESState :=
  { config := ⟨"uosmo", "ureward", 100⟩,
    stakes := [(("alice", "val1"), ⟨Lock.unlocked, ⟨100, [], 50, ⟨0⟩⟩⟩)],
    distribution := [("val1", ⟨Lock.unlocked, ⟨100, 2000000000, 0⟩⟩)],
    pending_txs := [] }

/-- External-staking state after the C8 withdraw: the withdrawn counter
reached the full 200 owed. -/
def c8After : ESState :=
  { config := ⟨"uosmo", "ureward", 100⟩,
    stakes := [(("alice", "val1"), ⟨Lock.unlocked, ⟨100, [], 200, ⟨0⟩⟩⟩)],
    distribution := [("val1", ⟨Lock.unlocked, ⟨100, 2000000000, 0⟩⟩)],
    pending_txs := [] }

/-- Witness for C8: with 100 staked, two scale units of points per stake
and 50 already withdrawn, the reward owed is 200 and the payout is
exactly 150, bringing the withdrawn counter to 200. -/
theorem c8_withdraw_rewards_pays_exact_witness :
    withdraw_rewards c8State "alice" "val1" = .ok (c8After, [("alice", 150)]) := by
  have h := c8_withdraw_rewards_pays_exact c8State "alice" "val1"
    ⟨100, [], 50, ⟨0⟩⟩ ⟨100, 2000000000, 0⟩ 200 rfl rfl (by decide) (by decide)
    (by decide) (by decide)
  simpa [c8State, c8After, afterWithdraw, asave] using h

/-- C10: immediately repeating a withdraw_rewards that paid a positive
amount, with no intervening distribution or stake change, computes a zero
reward, emits no bank send and returns the state unchanged.  The
hypotheses are those of the first withdrawal plus positivity of its
payout. -/
theorem c10_second_withdraw_is_noop (st : ESState) (sender : Addr)
    (validator : String) (stk : Stake) (dist : Distribution) (q : Nat)
    (hs : alookup (sender, validator) st.stakes = some ⟨Lock.unlocked, stk⟩)
    (hd : alookup validator st.distribution = some ⟨Lock.unlocked, dist⟩)
    (hq : q = ((dist.points_per_stake * stk.stake : Int) +
      stk.points_alignment.alignment).toNat / DISTRIBUTION_POINTS_SCALE)
    (hnn : 0 ≤ (dist.points_per_stake * stk.stake : Int) +
      stk.points_alignment.alignment)
    (hfit : q < 2 ^ 128)
    (hpos : stk.withdrawn_funds < q) :
    withdraw_rewards st sender validator =
      .ok (afterWithdraw st sender validator stk (q - stk.withdrawn_funds),
        [(sender, q - stk.withdrawn_funds)]) ∧
    withdraw_rewards (afterWithdraw st sender validator stk
        (q - stk.withdrawn_funds)) sender validator =
      .ok (afterWithdraw st sender validator stk (q - stk.withdrawn_funds),
        []) := by
  have hwd : stk.withdrawn_funds ≤ q := Nat.le_of_lt hpos
  have h1 := withdraw_rewards_spec st sender validator stk dist q hs hd hq hnn
    hfit hwd
  rw [if_neg (by omega)] at h1
  refine ⟨h1, ?_⟩
  have hs2 : alookup (sender, validator)
      (afterWithdraw st sender validator stk (q - stk.withdrawn_funds)).stakes =
      some ⟨Lock.unlocked, { stk with withdrawn_funds :=
        stk.withdrawn_funds + (q - stk.withdrawn_funds) }⟩ :=
    alookup_asave_self _ _ _
  have h2 := withdraw_rewards_spec
    (afterWithdraw st sender validator stk (q - stk.withdrawn_funds))
    sender validator
    ({ stk with withdrawn_funds := stk.withdrawn_funds + (q - stk.withdrawn_funds) })
    dist q hs2 hd hq hnn hfit (by simp; omega)
  rw [if_pos (by simp; omega)] at h2
  simpa [afterWithdraw] using h2

/-- Witness for C10: after the 150 payout of the c8State run, an
immediate second withdraw returns zero, sends nothing and leaves the
state bitwise unchanged. -/
theorem c10_second_withdraw_is_noop_witness :
    withdraw_rewards c8After "alice" "val1" = .ok (c8After, []) := by
  have h := (c10_second_withdraw_is_noop c8State "alice" "val1"
    ⟨100, [], 50, ⟨0⟩⟩ ⟨100, 2000000000, 0⟩ 200 rfl rfl (by decide) (by decide)
    (by decide) (by decide)).2
  simpa [c8State, c8After, afterWithdraw, asave] using h
